import Mathlib

/-!
Shallow embedding of the Pokédex repository: the list route
(`src/app/pokemon/page.tsx`, trailing `GET`), the detail route
(`src/app/api/pokemon/[id]/route.ts`) and the seeding routines
(`src/lib/seed-utils.ts`), over the Prisma data model
(`prisma/schema.prisma`).  JavaScript numbers appearing in these paths are
integers except for the height/weight fields, which are modelled as exact
rationals (`ℚ`); `NaN` is modelled as `none`.  Timestamp columns
(`createdAt`/`updatedAt`) play no role in any claim and are omitted.
-/

namespace Pokedex

/-! ### JavaScript primitives -/

/-- ASCII whitespace recognised by `parseInt`/`trim`. -/
def isWSChar (c : Char) : Bool :=
  c = ' ' || c = '\t' || c = '\n' || c = '\r' || c = '\x0b' || c = '\x0c'

def decDigit? (c : Char) : Option Nat :=
  if '0' ≤ c ∧ c ≤ '9' then some (c.toNat - '0'.toNat) else none

def hexDigit? (c : Char) : Option Nat :=
  if '0' ≤ c ∧ c ≤ '9' then some (c.toNat - '0'.toNat)
  else if 'a' ≤ c ∧ c ≤ 'f' then some (c.toNat - 'a'.toNat + 10)
  else if 'A' ≤ c ∧ c ≤ 'F' then some (c.toNat - 'A'.toNat + 10)
  else none

/-- Longest leading digit run under the digit reader `dv`. -/
def takeDigits (dv : Char → Option Nat) : List Char → List Nat
  | [] => []
  | c :: cs =>
    match dv c with
    | some v => v :: takeDigits dv cs
    | none => []

def natOfDigits (base : Nat) (ds : List Nat) : Nat :=
  ds.foldl (fun a d => a * base + d) 0

/-- JavaScript `parseInt(s)` with no radix argument: skip leading whitespace,
optional sign, `0x`/`0X` selects base 16, then the longest digit run; `none`
models `NaN` (no digits at all). -/
def jsParseInt (s : String) : Option Int :=
  let cs := s.data.dropWhile isWSChar
  let signed : Int × List Char :=
    match cs with
    | '-' :: r => (-1, r)
    | '+' :: r => (1, r)
    | r => (1, r)
  let based : Nat × List Char :=
    match signed.2 with
    | '0' :: 'x' :: r => (16, r)
    | '0' :: 'X' :: r => (16, r)
    | r => (10, r)
  let ds := takeDigits (if based.1 = 16 then hexDigit? else decDigit?) based.2
  if ds.isEmpty then none
  else some (signed.1 * (natOfDigits based.1 ds : Int))

/-- JavaScript `x < c` where `x` may be `NaN` (`none`): every comparison with
`NaN` is false. -/
def jsLt : Option Int → Int → Bool
  | none, _ => false
  | some x, c => decide (x < c)

/-- JavaScript `x > c` with the same `NaN` convention. -/
def jsGt : Option Int → Int → Bool
  | none, _ => false
  | some x, c => decide (c < x)

/-- ASCII lower-casing, as `toLowerCase` acts on the ASCII names involved. -/
def chLower (c : Char) : Char :=
  if 'A' ≤ c ∧ c ≤ 'Z' then Char.ofNat (c.toNat + 32) else c

def lowerChars (s : String) : List Char := s.data.map chLower

/-- Is `needle` a contiguous sublist of the second argument? -/
def subListOf (needle : List Char) : List Char → Bool
  | [] => needle.isEmpty
  | c :: rest => needle.isPrefixOf (c :: rest) || subListOf needle rest

/-- Prisma `{ contains: needle, mode: 'insensitive' }` on a string column:
case-insensitive substring test. -/
def containsCI (hay needle : String) : Bool :=
  subListOf (lowerChars needle) (lowerChars hay)

/-- Lexicographic comparison of char lists by code point. -/
def charListLe : List Char → List Char → Bool
  | [], _ => true
  | _ :: _, [] => false
  | a :: as, b :: bs =>
    if a.toNat < b.toNat then true
    else if b.toNat < a.toNat then false
    else charListLe as bs

/-- Database ORDER BY on a text column (lexicographic). -/
def strLe (a b : String) : Bool := charListLe a.data b.data

/-- Insertion step of the ORDER BY model. -/
def insertLe (le : α → α → Bool) (a : α) : List α → List α
  | [] => [a]
  | b :: bs => if le a b then a :: b :: bs else b :: insertLe le a bs

/-- Insertion sort: the model of the query layer's ORDER BY. -/
def sortLe (le : α → α → Bool) : List α → List α
  | [] => []
  | a :: as => insertLe le a (sortLe le as)

/-! ### Data model (prisma/schema.prisma) -/

structure PokemonRow where
  id : Int
  pokedexId : Int
  name : String
  slug : String
  description : Option String
  height : ℚ
  weight : ℚ
  baseExp : Int
  captureRate : Int
  isLegendary : Bool
  isMythical : Bool
  generation : Int
  spriteUrl : Option String
  spriteShinyUrl : Option String
  artworkUrl : Option String
deriving Repr, DecidableEq

structure TypeRow where
  id : Int
  name : String
  color : String
deriving Repr, DecidableEq

structure PokemonTypeRow where
  pokemonId : Int
  typeId : Int
  slot : Int
deriving Repr, DecidableEq

structure AbilityRow where
  id : Int
  name : String
  description : String
  effect : Option String
  isHidden : Bool
deriving Repr, DecidableEq

structure PokemonAbilityRow where
  pokemonId : Int
  abilityId : Int
  slot : Int
  isHidden : Bool
deriving Repr, DecidableEq

structure StatRow where
  id : Int
  name : String
deriving Repr, DecidableEq

structure PokemonStatRow where
  pokemonId : Int
  statId : Int
  baseStat : Int
  effort : Int
deriving Repr, DecidableEq

structure MoveRow where
  id : Int
  name : String
  typeId : Int
  category : String
  power : Option Int
  accuracy : Option Int
  pp : Int
  priority : Int
deriving Repr, DecidableEq

structure PokemonMoveRow where
  pokemonId : Int
  moveId : Int
  learnMethod : String
  levelLearned : Option Int
deriving Repr, DecidableEq

structure DB where
  pokemon : List PokemonRow
  types : List TypeRow
  pokemonTypes : List PokemonTypeRow
  abilities : List AbilityRow
  pokemonAbilities : List PokemonAbilityRow
  stats : List StatRow
  pokemonStats : List PokemonStatRow
  moves : List MoveRow
  pokemonMoves : List PokemonMoveRow
deriving Repr, DecidableEq

def emptyDB : DB := ⟨[], [], [], [], [], [], [], [], []⟩

/-! ### The list route: `GET /api/pokemon` (src/app/pokemon/page.tsx) -/

/-- The raw query string parameters of a list request (`none` = absent). -/
structure ListQuery where
  page : Option String
  limit : Option String
  search : Option String
  ty : Option String
deriving Repr, DecidableEq

/-- `searchParams.get(k) || dflt`: absent (`null`) and empty-string parameters
both fall back to the default, being falsy. -/
def paramOr (o : Option String) (dflt : String) : String :=
  match o with
  | none => dflt
  | some s => if s = "" then dflt else s

def pageVal (q : ListQuery) : Option Int := jsParseInt (paramOr q.page "1")

def limitVal (q : ListQuery) : Option Int := jsParseInt (paramOr q.limit "20")

def searchVal (q : ListQuery) : String := paramOr q.search ""

def typeVal (q : ListQuery) : String := paramOr q.ty ""

/-- The `OR` filter Prisma receives from a non-empty `search` parameter:
`[{ name: { contains: search, mode: 'insensitive' } }, { pokedexId: parseInt(search) || undefined }]`.
When `parseInt(search)` is `NaN` or `0` (both falsy) the second member's only
field is `undefined`; the Prisma client strips `undefined` fields, leaving the
empty condition `{}`, which places no constraint on a record and hence holds of
every row, making the whole `OR` vacuously true. -/
def searchWhere (search : String) (p : PokemonRow) : Bool :=
  containsCI p.name search ||
    (match jsParseInt search with
     | some n => if n = 0 then true else p.pokedexId == n
     | none => true)

/-- `types: { some: { type: { name: ty } } }`: some junction row of the Pokémon
joins to a type row with exactly the given name. -/
def typeWhere (db : DB) (ty : String) (p : PokemonRow) : Bool :=
  db.pokemonTypes.any fun pt =>
    pt.pokemonId == p.id &&
      db.types.any fun t => t.id == pt.typeId && t.name == ty

/-- The list route's `where` clause (`OR` only when `search` is truthy, the
type join only when `type` is truthy). -/
def listWhere (db : DB) (search ty : String) (p : PokemonRow) : Bool :=
  (search == "" || searchWhere search p) && (ty == "" || typeWhere db ty p)

/-- One entry of an included `types` relation (`{ type, slot }`). -/
structure TypeEntry where
  ty : TypeRow
  slot : Int
deriving Repr, DecidableEq

def typeSlotLe (a b : TypeEntry) : Bool := decide (a.slot ≤ b.slot)

/-- `include: { types: { include: { type: true }, orderBy: { slot: 'asc' } } }`. -/
def includedTypes (db : DB) (p : PokemonRow) : List TypeEntry :=
  sortLe typeSlotLe
    ((db.pokemonTypes.filter fun pt => pt.pokemonId == p.id).filterMap fun pt =>
      (db.types.find? fun t => t.id == pt.typeId).map fun t => ⟨t, pt.slot⟩)

/-- A list item: the Pokémon row with its included, slot-ordered types. -/
structure ListItem where
  row : PokemonRow
  types : List TypeEntry
deriving Repr, DecidableEq

structure ListOk where
  pokemon : List ListItem
  page : Int
  limit : Int
  total : Int
  totalPages : Int
deriving Repr, DecidableEq

inductive ListResult where
  /-- 400, `Invalid pagination parameters` -/
  | badRequest
  /-- 500, `Failed to fetch Pokemon data`: the catch-all around the handler;
  reached when Prisma rejects a `NaN` `skip`/`take` argument. -/
  | serverError
  | ok (r : ListOk)
deriving Repr, DecidableEq

def pokedexLe (a b : PokemonRow) : Bool := decide (a.pokedexId ≤ b.pokedexId)

/-- The list route handler.  Mirrors the source: parse `page`/`limit` (JS
`parseInt`, so `NaN` is possible), the guard `page < 1 || limit < 1 || limit > 100`
(false on `NaN`), then `findMany` with `skip = (page-1)*limit`, `take = limit`,
ordered by `pokedexId`, and a `count` with the same `where`;
`totalPages = Math.ceil(total / limit)`.  A `NaN` that survives the guard is
rejected by Prisma's argument validation and surfaces as the 500 catch-all. -/
def listGET (db : DB) (q : ListQuery) : ListResult :=
  if jsLt (pageVal q) 1 || jsLt (limitVal q) 1 || jsGt (limitVal q) 100 then
    .badRequest
  else
    match pageVal q, limitVal q with
    | some p, some l =>
      let matched := db.pokemon.filter (listWhere db (searchVal q) (typeVal q))
      let sorted := sortLe pokedexLe matched
      let items := (sorted.drop ((p - 1) * l).toNat).take l.toNat
      .ok
        { pokemon := items.map fun r => ⟨r, includedTypes db r⟩
          page := p
          limit := l
          total := matched.length
          -- `Math.ceil(total / limit)`: exact on the nonnegative `total` and
          -- positive `limit` reaching this point, rendered in integer
          -- arithmetic as `(total + limit - 1) / limit`.
          totalPages := ((matched.length : Int) + l - 1) / l }
    | _, _ => .serverError

/-! ### The detail route: `GET /api/pokemon/[id]` -/

structure AbilityEntry where
  ability : AbilityRow
  isHidden : Bool
  slot : Int
deriving Repr, DecidableEq

structure StatEntry where
  statName : String
  baseStat : Int
  effort : Int
deriving Repr, DecidableEq

/-- The transformed `move` object of the response; `ty` is
`pm.move.typeId.toString()` — the numeric type id rendered as a string. -/
structure MoveInfo where
  id : Int
  name : String
  ty : String
  power : Option Int
  accuracy : Option Int
  pp : Int
deriving Repr, DecidableEq

structure MoveEntry where
  move : MoveInfo
  level : Int
  learnMethodId : Int
  learnMethodName : String
deriving Repr, DecidableEq

structure DetailOk where
  id : Int
  pokedexId : Int
  name : String
  slug : String
  description : Option String
  height : ℚ
  weight : ℚ
  baseExp : Int
  captureRate : Int
  isLegendary : Bool
  isMythical : Bool
  generation : Int
  spriteURL : Option String
  spriteShinyURL : Option String
  artworkURL : Option String
  types : List TypeEntry
  stats : List StatEntry
  abilities : List AbilityEntry
  moves : List MoveEntry
deriving Repr, DecidableEq

inductive DetailResult where
  /-- 400, `Invalid Pokemon ID` -/
  | badRequest
  /-- 404, `Pokemon not found` -/
  | notFound
  | ok (r : DetailOk)
deriving Repr, DecidableEq

/-- SQL comparison on a nullable column: `NULL <= c` is not satisfied, so rows
with a `NULL` `levelLearned` are filtered out by `levelLearned: { lte: 100 }`. -/
def lteOpt : Option Int → Int → Bool
  | none, _ => false
  | some v, c => decide (v ≤ c)

/-- `orderBy: [{ levelLearned: 'asc' }, { move: { name: 'asc' } }]` on the
joined rows (every surviving row has a non-null level). -/
def moveLe (a b : PokemonMoveRow × MoveRow) : Bool :=
  let la := a.1.levelLearned.getD 0
  let lb := b.1.levelLearned.getD 0
  decide (la < lb) || (decide (la = lb) && strLe a.2.name b.2.name)

def abilitySlotLe (a b : AbilityEntry) : Bool := decide (a.slot ≤ b.slot)

/-- `abilities: { include: { ability: true }, orderBy: { slot: 'asc' } }`. -/
def includedAbilities (db : DB) (p : PokemonRow) : List AbilityEntry :=
  sortLe abilitySlotLe
    ((db.pokemonAbilities.filter fun pa => pa.pokemonId == p.id).filterMap fun pa =>
      (db.abilities.find? fun a => a.id == pa.abilityId).map fun a =>
        ⟨a, pa.isHidden, pa.slot⟩)

/-- `stats: { include: { stat: true } }` followed by the response mapping
(no ordering). -/
def includedStats (db : DB) (p : PokemonRow) : List StatEntry :=
  (db.pokemonStats.filter fun ps => ps.pokemonId == p.id).filterMap fun ps =>
    (db.stats.find? fun s => s.id == ps.statId).map fun s =>
      ⟨s.name, ps.baseStat, ps.effort⟩

/-- The `moves` relation: `where levelLearned <= 100`, joined to the move row,
ordered by level then move name, first 20 rows (`take: 20`). -/
def includedMoves (db : DB) (p : PokemonRow) : List (PokemonMoveRow × MoveRow) :=
  (sortLe moveLe
    ((db.pokemonMoves.filter fun pm =>
        pm.pokemonId == p.id && lteOpt pm.levelLearned 100).filterMap fun pm =>
      (db.moves.find? fun m => m.id == pm.moveId).map fun m => (pm, m))).take 20

/-- The per-move response mapping: `type` is `typeId.toString()`, `level` is
`levelLearned || 0`, and `learnMethod.id` is the hard-coded constant `1`. -/
def respMove (pm : PokemonMoveRow) (m : MoveRow) : MoveEntry :=
  { move := ⟨m.id, m.name, toString m.typeId, m.power, m.accuracy, m.pp⟩
    level := pm.levelLearned.getD 0
    learnMethodId := 1
    learnMethodName := pm.learnMethod }

/-- The ordering "level ascending, then move name ascending" on response
moves. -/
def respMoveLe (a b : MoveEntry) : Bool :=
  decide (a.level < b.level) ||
    (decide (a.level = b.level) && strLe a.move.name b.move.name)

/-- The detail route handler: `parseInt(params.id)`, the
`isNaN(pokemonId) || pokemonId < 1` guard, `findUnique` on `pokedexId`, then
the response transformation. -/
def detailGET (db : DB) (idStr : String) : DetailResult :=
  match jsParseInt idStr with
  | none => .badRequest
  | some pid =>
    if pid < 1 then .badRequest
    else
      match db.pokemon.find? fun p => p.pokedexId == pid with
      | none => .notFound
      | some p =>
        .ok
          { id := p.id
            pokedexId := p.pokedexId
            name := p.name
            slug := p.slug
            description := p.description
            height := p.height
            weight := p.weight
            baseExp := p.baseExp
            captureRate := p.captureRate
            isLegendary := p.isLegendary
            isMythical := p.isMythical
            generation := p.generation
            spriteURL := p.spriteUrl
            spriteShinyURL := p.spriteShinyUrl
            artworkURL := p.artworkUrl
            types := includedTypes db p
            stats := includedStats db p
            abilities := includedAbilities db p
            moves := (includedMoves db p).map fun e => respMove e.1 e.2 }

/-! ### Seeding (src/lib/seed-utils.ts) -/

/-- One element of the external record's `types` array. -/
structure ExtTypeSlot where
  slot : Int
  typeName : String
deriving Repr, DecidableEq

/-- The fields of a PokeAPI `/pokemon/{i}` response that `seedPokemon` reads. -/
structure ExtPokemon where
  id : Int
  name : String
  height : Int
  weight : Int
  baseExperience : Option Int
  types : List ExtTypeSlot
  spriteDefault : Option String
  spriteShiny : Option String
  artwork : Option String
deriving Repr, DecidableEq

structure FlavorEntry where
  flavorText : String
  lang : String
  version : String
deriving Repr, DecidableEq

/-- The fields of the auxiliary `/pokemon-species/{i}` response that are read. -/
structure ExtSpecies where
  flavorTextEntries : List FlavorEntry
  captureRate : Int
  isLegendary : Bool
  isMythical : Bool
  generationName : String
deriving Repr, DecidableEq

/-- First English entry tagged for version `red`, else any English entry. -/
def pickEnglishEntry (es : List FlavorEntry) : Option FlavorEntry :=
  (es.find? fun e => e.lang == "en" && e.version == "red").or
    (es.find? fun e => e.lang == "en")

/-- `.replace(/\f/g, ' ').replace(/\n/g, ' ')`, characterwise. -/
def cleanChar (c : Char) : Char := if c = '\x0c' || c = '\n' then ' ' else c

/-- JS `trim()`: strip leading and trailing whitespace. -/
def trimChars (cs : List Char) : List Char :=
  ((cs.dropWhile isWSChar).reverse.dropWhile isWSChar).reverse

def cleanFlavor (s : String) : String :=
  String.mk (trimChars (s.data.map cleanChar))

def descriptionOf (sd : ExtSpecies) : Option String :=
  (pickEnglishEntry sd.flavorTextEntries).map fun e => cleanFlavor e.flavorText

/-- A `\w` regex character. -/
def isWordChar (c : Char) : Bool :=
  ('a' ≤ c && c ≤ 'z') || ('A' ≤ c && c ≤ 'Z') || ('0' ≤ c && c ≤ '9') || c = '_'

/-- The `romanToNumber` lookup table of `seedPokemon`. -/
def romanToNumber : String → Option Int
  | "i" => some 1
  | "ii" => some 2
  | "iii" => some 3
  | "iv" => some 4
  | "v" => some 5
  | "vi" => some 6
  | "vii" => some 7
  | "viii" => some 8
  | "ix" => some 9
  | _ => none

/-- First match of `/generation-(\w+)/`: scan left to right for the literal
`generation-` followed by at least one word character; the capture is the
maximal word-character run after the hyphen. -/
def genCapture : List Char → Option (List Char)
  | [] => none
  | c :: rest =>
    if "generation-".data.isPrefixOf (c :: rest) then
      let run := ((c :: rest).drop 11).takeWhile isWordChar
      if run.isEmpty then genCapture rest else some run
    else genCapture rest

/-- The stored generation: roman token through the lookup; `1` both when the
regex does not match and when the token is not in the table (`|| 1`; every
table value is nonzero, so the falsy fallback only fires on `undefined`). -/
def generationOf (name : String) : Int :=
  match genCapture name.data with
  | some tok =>
    match romanToNumber (String.mk tok) with
    | some n => n
    | none => 1
  | none => 1

/-- `name.toLowerCase().replace(/[^a-z0-9]/g, '-')`. -/
def slugChar (c : Char) : Char :=
  if ('a' ≤ c && c ≤ 'z') || ('0' ≤ c && c ≤ '9') then c else '-'

def slugOf (name : String) : String :=
  String.mk ((name.data.map chLower).map slugChar)

/-- The `create` clause of `prisma.pokemon.upsert` in `seedPokemon`; the
surrogate `id` is assigned by the store at insertion time. -/
def mkCreate (pd : ExtPokemon) (sd : ExtSpecies) (newId : Int) : PokemonRow :=
  { id := newId
    pokedexId := pd.id
    name := pd.name
    slug := slugOf pd.name
    description := descriptionOf sd
    height := (pd.height : ℚ) / 10
    weight := (pd.weight : ℚ) / 10
    baseExp := pd.baseExperience.getD 0
    captureRate := sd.captureRate
    isLegendary := sd.isLegendary
    isMythical := sd.isMythical
    generation := generationOf sd.generationName
    spriteUrl := pd.spriteDefault
    spriteShinyUrl := pd.spriteShiny
    artworkUrl := pd.artwork }

/-- Auto-increment surrogate key for a fresh pokemon row. -/
def nextPokemonId (db : DB) : Int :=
  (db.pokemon.foldl (fun m r => max m r.id) 0) + 1

/-- `prisma.pokemon.upsert({ where: { pokedexId }, update: {}, create: ... })`:
returns the existing row untouched, or appends the created row. -/
def upsertPokemon (db : DB) (pd : ExtPokemon) (sd : ExtSpecies) :
    DB × PokemonRow :=
  match db.pokemon.find? fun r => r.pokedexId == pd.id with
  | some r => (db, r)
  | none =>
    let r := mkCreate pd sd (nextPokemonId db)
    ({ db with pokemon := db.pokemon ++ [r] }, r)

/-- Is the junction key `(pokemonId, slot)` already present? -/
def hasPT (db : DB) (pid slot : Int) : Bool :=
  db.pokemonTypes.any fun pt => pt.pokemonId == pid && pt.slot == slot

/-- `prisma.pokemonType.upsert` keyed on `pokemonId_slot`, empty update. -/
def upsertPokemonType (db : DB) (row : PokemonTypeRow) : DB :=
  if hasPT db row.pokemonId row.slot then db
  else { db with pokemonTypes := db.pokemonTypes ++ [row] }

/-- One iteration of the per-type loop inside `seedPokemon`: look the type up
by name and upsert the junction row; a type missing from the store is
skipped. -/
def addTypeStep (pokemonId : Int) (db : DB) (tslot : ExtTypeSlot) : DB :=
  match db.types.find? fun t => t.name == tslot.typeName with
  | some t => upsertPokemonType db ⟨pokemonId, t.id, tslot.slot⟩
  | none => db

/-- The per-type loop inside `seedPokemon`. -/
def addTypes (pokemonId : Int) (ts : List ExtTypeSlot) (db : DB) : DB :=
  ts.foldl (addTypeStep pokemonId) db

/-- One iteration body of the `seedPokemon` loop, after both fetches of record
`i` succeeded. -/
def seedRecord (db : DB) (pd : ExtPokemon) (sd : ExtSpecies) : DB :=
  match upsertPokemon db pd sd with
  | (db1, r) => addTypes r.id pd.types db1

structure SeedOutcome where
  db : DB
  errors : List Nat
deriving Repr

/-- The loop indices `1 .. limit` of `for (let i = 1; i <= limit; i++)`. -/
def seedIdx (limit : Nat) : List Nat := (List.range limit).map (· + 1)

/-- `seedPokemon(limit)`.  `fetch i` abstracts the two PokeAPI fetches for
record `i`; an `Except.error` models a thrown fetch/store error for that
record, which the `try/catch` logs (collected in `errors`) before the loop
continues with the next record. -/
def seedPokemonRun (fetch : Nat → Except String (ExtPokemon × ExtSpecies))
    (limit : Nat) (db : DB) : SeedOutcome :=
  (seedIdx limit).foldl
    (fun o i =>
      match fetch i with
      | .ok d => { o with db := seedRecord o.db d.1 d.2 }
      | .error _ => { o with errors := o.errors ++ [i] })
    ⟨db, []⟩

/-- The `TYPE_COLORS` record. -/
def typeColors : String → Option String
  | "normal" => some "#A8A878"
  | "fire" => some "#F08030"
  | "water" => some "#6890F0"
  | "electric" => some "#F8D030"
  | "grass" => some "#78C850"
  | "ice" => some "#98D8D8"
  | "fighting" => some "#C03028"
  | "poison" => some "#A040A0"
  | "ground" => some "#E0C068"
  | "flying" => some "#A890F0"
  | "psychic" => some "#F85888"
  | "bug" => some "#A8B820"
  | "rock" => some "#B8A038"
  | "ghost" => some "#705898"
  | "dragon" => some "#7038F8"
  | "dark" => some "#705848"
  | "steel" => some "#B8B8D0"
  | "fairy" => some "#EE99AC"
  | _ => none

def nextTypeId (db : DB) : Int :=
  (db.types.foldl (fun m t => max m t.id) 0) + 1

/-- `prisma.type.upsert({ where: { name }, update: {}, create: { name, color: TYPE_COLORS[name] || '#68A090' } })`. -/
def upsertType (db : DB) (name : String) : DB :=
  if db.types.any fun t => t.name == name then db
  else
    { db with
        types := db.types ++ [⟨nextTypeId db, name, (typeColors name).getD "#68A090"⟩] }

/-- One iteration of the `seedPokemonTypes` loop on a `(listing name, fetched
detail name)` pair: `unknown` and `shadow` are skipped by listing name, and
the upsert is keyed on the fetched detail's name. -/
def tyStep (db : DB) (it : String × String) : DB :=
  if it.1 == "unknown" || it.1 == "shadow" then db
  else upsertType db it.2

/-- `seedPokemonTypes()` over the pairs of the type listing. -/
def seedTypesRun (items : List (String × String)) (db : DB) : DB :=
  items.foldl tyStep db

/-- The state transition of one `seedPokemon` loop iteration on the stored
data (the error log aside): a failed fetch leaves the store unchanged. -/
def dbStep (fetch : Nat → Except String (ExtPokemon × ExtSpecies))
    (db : DB) (i : Nat) : DB :=
  match fetch i with
  | .ok d => seedRecord db d.1 d.2
  | .error _ => db

/-- Everything the `seedPokemon` iteration for the external record `pd` would
write is already present in `db`: the row keyed by the national id exists,
and for each of `pd`'s type slots whose type name resolves, the junction row
keyed `(pokemon id, slot)` exists. -/
def DoneRec (db : DB) (pd : ExtPokemon) : Prop :=
  ∃ r, db.pokemon.find? (fun x => x.pokedexId == pd.id) = some r ∧
    ∀ ts ∈ pd.types, ∀ t,
      db.types.find? (fun x => x.name == ts.typeName) = some t →
      hasPT db r.id ts.slot = true

/-- `DoneRec` lifted along the fetch oracle: failed records are trivially
done. -/
def DoneStep (fetch : Nat → Except String (ExtPokemon × ExtSpecies))
    (db : DB) (i : Nat) : Prop :=
  match fetch i with
  | .ok d => DoneRec db d.1
  | .error _ => True

/-- Everything the `seedPokemonTypes` iteration for `it` would write is
already present in `db`. -/
def DoneTy (db : DB) (it : String × String) : Prop :=
  it.1 = "unknown" ∨ it.1 = "shadow" ∨
    (db.types.any fun t => t.name == it.2) = true

/-! ### Concrete test fixtures -/

def bulbaRow : PokemonRow :=
  { id := 1, pokedexId := 1, name := "bulbasaur", slug := "bulbasaur",
    description := none, height := 1, weight := 7, baseExp := 64,
    captureRate := 45, isLegendary := false, isMythical := false,
    generation := 1, spriteUrl := none, spriteShinyUrl := none,
    artworkUrl := none }

def pikaRow : PokemonRow :=
  { id := 2, pokedexId := 25, name := "pikachu", slug := "pikachu",
    description := none, height := 1, weight := 6, baseExp := 112,
    captureRate := 190, isLegendary := false, isMythical := false,
    generation := 1, spriteUrl := none, spriteShinyUrl := none,
    artworkUrl := none }

/-- A store holding Bulbasaur (#1) and Pikachu (#25) and nothing else. -/
def searchDB : DB := { emptyDB with pokemon := [bulbaRow, pikaRow] }

def electricT : TypeRow := ⟨1, "electric", "#F8D030"⟩

def flyingT : TypeRow := ⟨2, "flying", "#A890F0"⟩

def staticA : AbilityRow := ⟨1, "static", "may paralyze", none, false⟩

def lightningRodA : AbilityRow := ⟨2, "lightning-rod", "draws moves", none, true⟩

def thunderShockM : MoveRow := ⟨1, "thunder-shock", 13, "special", some 40, some 100, 30, 0⟩

def growlM : MoveRow := ⟨2, "growl", 1, "status", none, some 100, 40, 0⟩

def thunderboltM : MoveRow := ⟨3, "thunderbolt", 13, "special", some 90, some 100, 15, 0⟩

def surfM : MoveRow := ⟨4, "surf", 11, "special", some 90, some 100, 15, 0⟩

/-- A store with Pikachu, two types and abilities (junction rows deliberately
out of slot order), one stat, and four learnable moves — one of them
(`surf` via `machine`) with a `NULL` learn level. -/
def detailDB : DB :=
  { pokemon := [pikaRow]
    types := [electricT, flyingT]
    pokemonTypes := [⟨2, 2, 2⟩, ⟨2, 1, 1⟩]
    abilities := [staticA, lightningRodA]
    pokemonAbilities := [⟨2, 2, 3, true⟩, ⟨2, 1, 1, false⟩]
    stats := [⟨1, "hp"⟩]
    pokemonStats := [⟨2, 1, 35, 0⟩]
    moves := [thunderShockM, growlM, thunderboltM, surfM]
    pokemonMoves :=
      [⟨2, 3, "level-up", some 26⟩,
       ⟨2, 1, "level-up", some 1⟩,
       ⟨2, 4, "machine", none⟩,
       ⟨2, 2, "level-up", some 1⟩] }

/-- The detail response for `detailDB` at id 25 (checked by `decide` in the
witnesses below). -/
def pikaDetail : DetailOk :=
  { id := 2, pokedexId := 25, name := "pikachu", slug := "pikachu",
    description := none, height := 1, weight := 6, baseExp := 112,
    captureRate := 190, isLegendary := false, isMythical := false,
    generation := 1, spriteURL := none, spriteShinyURL := none,
    artworkURL := none
    types := [⟨electricT, 1⟩, ⟨flyingT, 2⟩]
    stats := [⟨"hp", 35, 0⟩]
    abilities := [⟨staticA, false, 1⟩, ⟨lightningRodA, true, 3⟩]
    moves :=
      [⟨⟨2, "growl", "1", none, some 100, 40⟩, 1, 1, "level-up"⟩,
       ⟨⟨1, "thunder-shock", "13", some 40, some 100, 30⟩, 1, 1, "level-up"⟩,
       ⟨⟨3, "thunderbolt", "13", some 90, some 100, 15⟩, 26, 1, "level-up"⟩] }

/-- A store whose only Pokémon knows exactly one move, stored with a `NULL`
learn level (a `machine` move). -/
def nullMoveDB : DB :=
  { emptyDB with
      pokemon := [bulbaRow]
      moves := [surfM]
      pokemonMoves := [⟨1, 4, "machine", none⟩] }

/-- The detail response for `nullMoveDB` at id 1: all relation lists are
empty — in particular the `NULL`-level move is absent. -/
def nullDetail : DetailOk :=
  { id := 1, pokedexId := 1, name := "bulbasaur", slug := "bulbasaur",
    description := none, height := 1, weight := 7, baseExp := 64,
    captureRate := 45, isLegendary := false, isMythical := false,
    generation := 1, spriteURL := none, spriteShinyURL := none,
    artworkURL := none, types := [], stats := [], abilities := [], moves := [] }

/-- The first move entry of `pikaDetail`. -/
def growlEntry : MoveEntry :=
  ⟨⟨2, "growl", "1", none, some 100, 40⟩, 1, 1, "level-up"⟩

/-- External record `i` for the seed-loop fixtures (distinct national ids,
spec test values `height = 4` decimeters, `weight = 60` hectograms). -/
def extPoke (i : Nat) : ExtPokemon :=
  { id := (i : Int), name := "poke" ++ toString i, height := 4, weight := 60,
    baseExperience := some 64,
    types := [⟨1, "grass"⟩],
    spriteDefault := none, spriteShiny := none, artwork := none }

def extSpec : ExtSpecies :=
  { flavorTextEntries := [⟨"A strange seed.\nIt grows.", "en", "red"⟩],
    captureRate := 45, isLegendary := false, isMythical := false,
    generationName := "generation-i" }

/-- A fetch oracle that fails exactly on record #7. -/
def fetch7 (i : Nat) : Except String (ExtPokemon × ExtSpecies) :=
  if i = 7 then .error "Failed to fetch" else .ok (extPoke i, extSpec)

/-- `l` is sorted with respect to the boolean comparison `le`. -/
def SortedByB (le : α → α → Bool) (l : List α) : Prop :=
  l.Pairwise fun a b => le a b = true

/-! ### Lemmas about the ORDER BY model -/

theorem mem_insertLe {le : α → α → Bool} {a x : α} {l : List α} :
    x ∈ insertLe le a l ↔ x = a ∨ x ∈ l := by
  induction l with
  | nil => simp [insertLe]
  | cons b bs ih =>
    cases h : le a b with
    | true => simp [insertLe, h]
    | false =>
      simp only [insertLe, h, Bool.false_eq_true, if_false, List.mem_cons, ih]
      tauto

theorem mem_sortLe {le : α → α → Bool} {x : α} {l : List α} :
    x ∈ sortLe le l ↔ x ∈ l := by
  induction l with
  | nil => simp [sortLe]
  | cons a as ih => simp [sortLe, mem_insertLe, ih]

theorem pairwise_insertLe {le : α → α → Bool}
    (htot : ∀ a b, le a b = true ∨ le b a = true)
    (htrans : ∀ a b c, le a b = true → le b c = true → le a c = true)
    {a : α} {l : List α} (h : SortedByB le l) :
    SortedByB le (insertLe le a l) := by
  induction l with
  | nil => simp [insertLe, SortedByB]
  | cons b bs ih =>
    rcases List.pairwise_cons.mp h with ⟨hb, hbs⟩
    cases hab : le a b with
    | true =>
      rw [SortedByB, insertLe, hab, if_pos rfl]
      refine List.pairwise_cons.mpr ⟨?_, h⟩
      intro y hy
      rcases List.mem_cons.mp hy with rfl | hy
      · exact hab
      · exact htrans a b y hab (hb y hy)
    | false =>
      have hba : le b a = true := by
        rcases htot a b with hx | hx
        · rw [hab] at hx; cases hx
        · exact hx
      rw [SortedByB, insertLe, hab]
      simp only [Bool.false_eq_true, if_false]
      refine List.pairwise_cons.mpr ⟨?_, ih hbs⟩
      intro y hy
      rcases mem_insertLe.mp hy with rfl | hy
      · exact hba
      · exact hb y hy

theorem pairwise_sortLe {le : α → α → Bool}
    (htot : ∀ a b, le a b = true ∨ le b a = true)
    (htrans : ∀ a b c, le a b = true → le b c = true → le a c = true)
    (l : List α) : SortedByB le (sortLe le l) := by
  induction l with
  | nil => exact List.Pairwise.nil
  | cons a as ih => exact pairwise_insertLe htot htrans ih

theorem charListLe_total (a b : List Char) :
    charListLe a b = true ∨ charListLe b a = true := by
  induction a generalizing b with
  | nil => left; rfl
  | cons c cs ih =>
    cases b with
    | nil => right; rfl
    | cons d ds =>
      by_cases h1 : c.toNat < d.toNat
      · left; simp [charListLe, h1]
      · by_cases h2 : d.toNat < c.toNat
        · right; simp [charListLe, h1, h2]
        · rcases ih ds with h | h
          · left; simp [charListLe, h1, h2, h]
          · right; simp [charListLe, h1, h2, h]

theorem charListLe_trans (a b c : List Char)
    (h1 : charListLe a b = true) (h2 : charListLe b c = true) :
    charListLe a c = true := by
  induction a generalizing b c with
  | nil => rfl
  | cons x xs ih =>
    cases b with
    | nil => simp [charListLe] at h1
    | cons y ys =>
      cases c with
      | nil => simp [charListLe] at h2
      | cons z zs =>
        simp only [charListLe] at h1 h2 ⊢
        split_ifs at h1 h2 ⊢ <;>
          first
          | rfl
          | omega
          | (exact ih ys zs h1 h2)

theorem strLe_total (a b : String) : strLe a b = true ∨ strLe b a = true :=
  charListLe_total a.data b.data

theorem strLe_trans (a b c : String)
    (h1 : strLe a b = true) (h2 : strLe b c = true) : strLe a c = true :=
  charListLe_trans a.data b.data c.data h1 h2

theorem typeSlotLe_total (a b : TypeEntry) :
    typeSlotLe a b = true ∨ typeSlotLe b a = true := by
  simp only [typeSlotLe, decide_eq_true_eq]; omega

theorem typeSlotLe_trans (a b c : TypeEntry)
    (h1 : typeSlotLe a b = true) (h2 : typeSlotLe b c = true) :
    typeSlotLe a c = true := by
  simp only [typeSlotLe, decide_eq_true_eq] at h1 h2 ⊢; omega

theorem abilitySlotLe_total (a b : AbilityEntry) :
    abilitySlotLe a b = true ∨ abilitySlotLe b a = true := by
  simp only [abilitySlotLe, decide_eq_true_eq]; omega

theorem abilitySlotLe_trans (a b c : AbilityEntry)
    (h1 : abilitySlotLe a b = true) (h2 : abilitySlotLe b c = true) :
    abilitySlotLe a c = true := by
  simp only [abilitySlotLe, decide_eq_true_eq] at h1 h2 ⊢; omega

theorem moveLe_total (a b : PokemonMoveRow × MoveRow) :
    moveLe a b = true ∨ moveLe b a = true := by
  simp only [moveLe, Bool.or_eq_true, Bool.and_eq_true, decide_eq_true_eq]
  rcases lt_trichotomy (a.1.levelLearned.getD 0) (b.1.levelLearned.getD 0) with h | h | h
  · exact Or.inl (Or.inl h)
  · rcases strLe_total a.2.name b.2.name with hs | hs
    · exact Or.inl (Or.inr ⟨h, hs⟩)
    · exact Or.inr (Or.inr ⟨h.symm, hs⟩)
  · exact Or.inr (Or.inl h)

theorem moveLe_trans (a b c : PokemonMoveRow × MoveRow)
    (h1 : moveLe a b = true) (h2 : moveLe b c = true) : moveLe a c = true := by
  simp only [moveLe, Bool.or_eq_true, Bool.and_eq_true, decide_eq_true_eq] at h1 h2 ⊢
  rcases h1 with h1 | ⟨h1e, h1s⟩ <;> rcases h2 with h2 | ⟨h2e, h2s⟩
  · exact Or.inl (h1.trans h2)
  · exact Or.inl (h2e ▸ h1)
  · exact Or.inl (h1e ▸ h2)
  · exact Or.inr ⟨h1e.trans h2e, strLe_trans _ _ _ h1s h2s⟩

/-! ### Ceiling division -/

/-- For a positive divisor, the integer computation `(t + l - 1) / l` is the
ceiling of the exact rational quotient `t / l` — i.e. `Math.ceil(t / l)`. -/
theorem intCeilDiv_eq (t l : ℤ) (hl : 1 ≤ l) :
    (t + l - 1) / l = ⌈(t : ℚ) / (l : ℚ)⌉ := by
  have hl0 : (0 : ℤ) < l := by omega
  set n : ℤ := (t + l - 1) / l with hn
  have hdm : l * n + (t + l - 1) % l = t + l - 1 := Int.ediv_add_emod _ _
  have hr0 : 0 ≤ (t + l - 1) % l := Int.emod_nonneg _ (by omega)
  have hrl : (t + l - 1) % l < l := Int.emod_lt_of_pos _ hl0
  have h1 : t ≤ n * l := by nlinarith
  have h2 : (n - 1) * l < t := by nlinarith
  have hlq : (0 : ℚ) < (l : ℚ) := by exact_mod_cast hl0
  symm
  rw [Int.ceil_eq_iff]
  constructor
  · rw [lt_div_iff₀ hlq]
    calc ((n : ℚ) - 1) * (l : ℚ) = (((n - 1) * l : ℤ) : ℚ) := by push_cast; ring
    _ < (t : ℚ) := by exact_mod_cast h2
  · rw [div_le_iff₀ hlq]
    calc (t : ℚ) ≤ ((n * l : ℤ) : ℚ) := by exact_mod_cast h1
    _ = (n : ℚ) * (l : ℚ) := by push_cast; ring

/-! ### Claim theorems -/

/-- C1: for every List request whose `page` parses to `p ≥ 1` and whose
`limit` parses to `1 ≤ l ≤ 100`, the route answers 200 with at most `limit`
Pokémon, `total` equal to the number of stored Pokémon matching the request's
filters, and `totalPages = ⌈total / limit⌉`. -/
theorem C1_list_pagination (db : DB) (q : ListQuery) (p l : Int)
    (hp : pageVal q = some p) (hp1 : 1 ≤ p)
    (hl : limitVal q = some l) (hl1 : 1 ≤ l) (hl100 : l ≤ 100) :
    ∃ r : ListOk, listGET db q = .ok r ∧
      (r.pokemon.length : Int) ≤ l ∧
      r.total = ((db.pokemon.filter (listWhere db (searchVal q) (typeVal q))).length : Int) ∧
      r.totalPages = ⌈(r.total : ℚ) / (l : ℚ)⌉ := by
  have g1 : jsLt (some p) 1 = false := by
    simp only [jsLt, decide_eq_false_iff_not]; omega
  have g2 : jsLt (some l) 1 = false := by
    simp only [jsLt, decide_eq_false_iff_not]; omega
  have g3 : jsGt (some l) 100 = false := by
    simp only [jsGt, decide_eq_false_iff_not]; omega
  simp only [listGET, hp, hl, g1, g2, g3, Bool.or_self, Bool.or_false,
    Bool.false_or, Bool.false_eq_true, if_false]
  refine ⟨_, rfl, ?_, rfl, intCeilDiv_eq _ l hl1⟩
  simp only [List.length_map, List.length_take]
  have ht : (l.toNat : Int) = l := Int.toNat_of_nonneg (by omega)
  omega

/-- C1 witness: a concrete valid request against `searchDB`. -/
theorem C1_list_pagination_witness :
    ∃ r : ListOk,
      listGET searchDB ⟨some "1", some "20", none, none⟩ = .ok r ∧
      (r.pokemon.length : Int) ≤ 20 ∧
      r.total = ((searchDB.pokemon.filter
        (listWhere searchDB (searchVal ⟨some "1", some "20", none, none⟩)
          (typeVal ⟨some "1", some "20", none, none⟩))).length : Int) ∧
      r.totalPages = ⌈(r.total : ℚ) / ((20 : Int) : ℚ)⌉ :=
  C1_list_pagination searchDB ⟨some "1", some "20", none, none⟩ 1 20
    (by decide) (by decide) (by decide) (by decide) (by decide)

/-- C2: evaluation of the list route at the failing input.  In `searchDB`
(Bulbasaur #1 and Pikachu #25) a search for `"chu"` — which is not numeric
(`parseInt` gives `NaN`) and is not a substring of `"bulbasaur"` — returns
BOTH Pokémon: the falsy-to-`undefined` `pokedexId` member of the `OR` filter
collapses to the empty Prisma condition, which matches every row. -/
theorem C2_search_matches_all :
    listGET searchDB ⟨none, none, some "chu", none⟩ =
      .ok { pokemon := [⟨bulbaRow, []⟩, ⟨pikaRow, []⟩], page := 1, limit := 20,
            total := 2, totalPages := 1 } ∧
    containsCI "bulbasaur" "chu" = false ∧
    jsParseInt "chu" = none := by
  decide

/-- C3 (amended): `page`/`limit` values that parse but violate
`page ≥ 1 ∧ 1 ≤ limit ≤ 100` give a 400, and a Detail id that does not parse
or is non-positive gives a 400; but a `page` or `limit` that does NOT parse
(`NaN`) passes the guard — every comparison with `NaN` is false — and the
request dies in the query layer as a 500 server error. -/
theorem C3_validation_amended :
    (∀ (db : DB) (q : ListQuery) (p l : Int),
        pageVal q = some p → limitVal q = some l →
        (p < 1 ∨ l < 1 ∨ 100 < l) → listGET db q = .badRequest) ∧
    (∀ (db : DB) (q : ListQuery),
        pageVal q = none →
        (limitVal q = none ∨ ∃ l, limitVal q = some l ∧ 1 ≤ l ∧ l ≤ 100) →
        listGET db q = .serverError) ∧
    (∀ (db : DB) (q : ListQuery) (p : Int),
        limitVal q = none → pageVal q = some p → 1 ≤ p →
        listGET db q = .serverError) ∧
    (∀ (db : DB) (s : String),
        jsParseInt s = none → detailGET db s = .badRequest) ∧
    (∀ (db : DB) (s : String) (n : Int),
        jsParseInt s = some n → n < 1 → detailGET db s = .badRequest) := by
  refine ⟨?_, ?_, ?_, ?_, ?_⟩
  · intro db q p l hp hl hbad
    have hguard :
        (jsLt (pageVal q) 1 || jsLt (limitVal q) 1 || jsGt (limitVal q) 100) = true := by
      rw [hp, hl]
      simp only [jsLt, jsGt, Bool.or_eq_true, decide_eq_true_eq]
      tauto
    simp only [listGET, hguard, if_true]
  · intro db q hp hl
    rcases hl with hl | ⟨l, hl, hl1, hl100⟩
    · simp only [listGET, hp, hl, jsLt, jsGt, Bool.or_self, if_false,
        Bool.false_eq_true]
    · have g0 : jsLt (none : Option Int) 1 = false := rfl
      have g2 : jsLt (some l) 1 = false := by
        simp only [jsLt, decide_eq_false_iff_not]; omega
      have g3 : jsGt (some l) 100 = false := by
        simp only [jsGt, decide_eq_false_iff_not]; omega
      simp only [listGET, hp, hl, g0, g2, g3, Bool.or_self, Bool.or_false,
        Bool.false_or, if_false, Bool.false_eq_true]
  · intro db q p hl hp hp1
    have g0 : jsLt (none : Option Int) 1 = false := rfl
    have g0' : jsGt (none : Option Int) 100 = false := rfl
    have g1 : jsLt (some p) 1 = false := by
      simp only [jsLt, decide_eq_false_iff_not]; omega
    simp only [listGET, hl, hp, g0, g0', g1, Bool.or_self, Bool.or_false,
      Bool.false_or, if_false, Bool.false_eq_true]
  · intro db s h
    simp only [detailGET, h]
  · intro db s n h hn
    simp only [detailGET, h, if_pos hn]

/-- C3 witness: out-of-range numeric parameters and bad ids give 400s. -/
theorem C3_validation_amended_witness :
    listGET emptyDB ⟨some "0", none, none, none⟩ = .badRequest ∧
    detailGET emptyDB "abc" = .badRequest ∧
    detailGET emptyDB "-5" = .badRequest :=
  ⟨C3_validation_amended.1 emptyDB ⟨some "0", none, none, none⟩ 0 20
      (by decide) (by decide) (Or.inl (by decide)),
   C3_validation_amended.2.2.2.1 emptyDB "abc" (by decide),
   C3_validation_amended.2.2.2.2 emptyDB "-5" (-5) (by decide) (by decide)⟩

/-- C3 counterexample: a `page` that does not parse as a number is NOT
rejected with a 4xx — `parseInt` yields `NaN`, the guard `page < 1` is false
on `NaN`, and the request reaches the query layer, which rejects the `NaN`
`skip` argument: the route answers with the 500 catch-all. -/
theorem C3_nan_page_is_500 :
    listGET emptyDB ⟨some "abc", none, none, none⟩ = .serverError ∧
    ListResult.serverError ≠ ListResult.badRequest := by
  decide

/-- C4: a Detail id that parses to a positive integer matching no stored
Pokémon's national id yields the 404 branch; a non-positive id yields the 400
validation branch. -/
theorem C4_detail_errors :
    (∀ (db : DB) (s : String) (n : Int),
        jsParseInt s = some n → 1 ≤ n →
        db.pokemon.find? (fun p => p.pokedexId == n) = none →
        detailGET db s = .notFound) ∧
    (∀ (db : DB) (s : String) (n : Int),
        jsParseInt s = some n → n < 1 → detailGET db s = .badRequest) := by
  constructor
  · intro db s n h hn hfind
    simp only [detailGET, h, if_neg (show ¬n < 1 by omega), hfind]
  · intro db s n h hn
    simp only [detailGET, h, if_pos hn]

/-- C4 witness: id 99999 is unknown in `detailDB` (404 branch) and id 0 is
non-positive (400 branch). -/
theorem C4_detail_errors_witness :
    detailGET detailDB "99999" = .notFound ∧
    detailGET detailDB "0" = .badRequest :=
  ⟨C4_detail_errors.1 detailDB "99999" 99999 (by decide) (by decide) (by decide),
   C4_detail_errors.2 detailDB "0" 0 (by decide) (by decide)⟩

/-- Any 200 detail response is the transformation of some stored Pokémon row:
its relation lists are exactly the included, ordered joins. -/
theorem detail_ok_shape {db : DB} {s : String} {r : DetailOk}
    (h : detailGET db s = .ok r) :
    ∃ p : PokemonRow,
      r.types = includedTypes db p ∧
      r.abilities = includedAbilities db p ∧
      r.moves = (includedMoves db p).map fun e => respMove e.1 e.2 := by
  unfold detailGET at h
  split at h
  · exact absurd h (by simp)
  · split at h
    · exact absurd h (by simp)
    · split at h
      · exact absurd h (by simp)
      · rename_i p _
        injection h with h2
        subst h2
        exact ⟨p, rfl, rfl, rfl⟩

/-- Every entry of the included moves join comes from a junction row of the
Pokémon with a non-null level `≤ 100` and its joined move row. -/
theorem includedMoves_mem {db : DB} {p : PokemonRow}
    {e : PokemonMoveRow × MoveRow} (he : e ∈ includedMoves db p) :
    e.1 ∈ db.pokemonMoves ∧ e.2 ∈ db.moves ∧ e.2.id = e.1.moveId ∧
      ∃ v, e.1.levelLearned = some v ∧ v ≤ 100 := by
  have h1 : e ∈ sortLe moveLe
      ((db.pokemonMoves.filter fun pm =>
          pm.pokemonId == p.id && lteOpt pm.levelLearned 100).filterMap fun pm =>
        (db.moves.find? fun m => m.id == pm.moveId).map fun m => (pm, m)) :=
    List.Sublist.mem he (List.take_sublist _ _)
  have h2 := mem_sortLe.mp h1
  rcases List.mem_filterMap.mp h2 with ⟨pm, hpm, hmap⟩
  rcases Option.map_eq_some'.mp hmap with ⟨mv, hfind, hpair⟩
  rcases List.mem_filter.mp hpm with ⟨hpmm, hcond⟩
  rcases (Bool.and_eq_true _ _).mp hcond with ⟨_, hlte⟩
  subst hpair
  refine ⟨hpmm, List.mem_of_find?_eq_some hfind, ?_, ?_⟩
  · have := List.find?_some hfind
    simpa using this
  · cases hv : pm.levelLearned with
    | none => rw [hv] at hlte; cases hlte
    | some v =>
      rw [hv] at hlte
      exact ⟨v, rfl, by simpa [lteOpt] using hlte⟩

/-- C5: in every 200 detail response the types and abilities are ordered by
slot ascending, and the moves list has at most 20 entries, each with learn
level ≤ 100, ordered by level ascending then move name ascending. -/
theorem C5_detail_ordering (db : DB) (s : String) (r : DetailOk)
    (h : detailGET db s = .ok r) :
    SortedByB typeSlotLe r.types ∧
    SortedByB abilitySlotLe r.abilities ∧
    r.moves.length ≤ 20 ∧
    (∀ m ∈ r.moves, m.level ≤ 100) ∧
    SortedByB respMoveLe r.moves := by
  rcases detail_ok_shape h with ⟨p, hty, hab, hmv⟩
  refine ⟨?_, ?_, ?_, ?_, ?_⟩
  · rw [hty]
    exact pairwise_sortLe typeSlotLe_total typeSlotLe_trans _
  · rw [hab]
    exact pairwise_sortLe abilitySlotLe_total abilitySlotLe_trans _
  · rw [hmv]
    simp only [List.length_map, includedMoves, List.length_take]
    omega
  · intro m hm
    rw [hmv] at hm
    rcases List.mem_map.mp hm with ⟨e, he, rfl⟩
    rcases includedMoves_mem he with ⟨-, -, -, v, hv, hv100⟩
    simp [respMove, hv]
    omega
  · rw [hmv]
    refine List.pairwise_map.mpr ?_
    have hs : SortedByB moveLe (includedMoves db p) :=
      List.Pairwise.sublist (List.take_sublist _ _)
        (pairwise_sortLe moveLe_total moveLe_trans _)
    exact hs.imp fun {a b} hab2 => hab2

/-- C5 witness: the detail response of `detailDB` at id 25. -/
theorem C5_detail_ordering_witness :
    SortedByB typeSlotLe pikaDetail.types ∧
    SortedByB abilitySlotLe pikaDetail.abilities ∧
    pikaDetail.moves.length ≤ 20 ∧
    (∀ m ∈ pikaDetail.moves, m.level ≤ 100) ∧
    SortedByB respMoveLe pikaDetail.moves :=
  C5_detail_ordering detailDB "25" pikaDetail (by decide)

/-- C6: every move of a 200 detail response carries, in its `type` field, the
decimal string rendering of the stored move's numeric `typeId` (not a type
name). -/
theorem C6_move_type_is_id_string (db : DB) (s : String) (r : DetailOk)
    (h : detailGET db s = .ok r) :
    ∀ m ∈ r.moves, ∃ mv, mv ∈ db.moves ∧ mv.id = m.move.id ∧
      m.move.ty = toString mv.typeId := by
  rcases detail_ok_shape h with ⟨p, -, -, hmv⟩
  intro m hm
  rw [hmv] at hm
  rcases List.mem_map.mp hm with ⟨e, he, rfl⟩
  rcases includedMoves_mem he with ⟨-, hmem, -, -⟩
  exact ⟨e.2, hmem, rfl, rfl⟩

/-- C6 witness: `growl` has `typeId = 1` in `detailDB` and is reported with
`type = "1"` (while the type's resolved name would be `"normal"`). -/
theorem C6_move_type_is_id_string_witness :
    ∃ mv, mv ∈ detailDB.moves ∧ mv.id = growlEntry.move.id ∧
      growlEntry.move.ty = toString mv.typeId :=
  C6_move_type_is_id_string detailDB "25" pikaDetail (by decide)
    growlEntry (by decide)

/-- C10 (amended): every reported move has the constant `learnMethod.id = 1`,
and every reported move corresponds to a stored junction row whose learn
level is non-null (`some m.level`, `≤ 100`) — a stored move with a `NULL`
learn level is excluded by the `levelLearned <= 100` filter and never
reported at all, so the `|| 0` fallback to level 0 is unreachable. -/
theorem C10_learn_method_constant (db : DB) (s : String) (r : DetailOk)
    (h : detailGET db s = .ok r) :
    (∀ m ∈ r.moves, m.learnMethodId = 1) ∧
    (∀ m ∈ r.moves, ∃ pm, pm ∈ db.pokemonMoves ∧
      pm.levelLearned = some m.level ∧ m.level ≤ 100) := by
  rcases detail_ok_shape h with ⟨p, -, -, hmv⟩
  constructor
  · intro m hm
    rw [hmv] at hm
    rcases List.mem_map.mp hm with ⟨e, he, rfl⟩
    rfl
  · intro m hm
    rw [hmv] at hm
    rcases List.mem_map.mp hm with ⟨e, he, rfl⟩
    rcases includedMoves_mem he with ⟨hpm, -, -, v, hv, hv100⟩
    refine ⟨e.1, hpm, ?_, ?_⟩
    · simp [respMove, hv]
    · simp only [respMove, Option.getD_some, hv]
      exact hv100

/-- C10 witness: the moves reported for `detailDB` at id 25. -/
theorem C10_learn_method_constant_witness :
    (∀ m ∈ pikaDetail.moves, m.learnMethodId = 1) ∧
    (∀ m ∈ pikaDetail.moves, ∃ pm, pm ∈ detailDB.pokemonMoves ∧
      pm.levelLearned = some m.level ∧ m.level ≤ 100) :=
  C10_learn_method_constant detailDB "25" pikaDetail (by decide)

/-- C10 counterexample: in `nullMoveDB` the only stored move of Pokémon #1
has a `NULL` learn level; the claim says it is reported with level 0, but the
200 response reports NO move at all — the `levelLearned <= 100` filter drops
the row. -/
theorem C10_null_level_not_reported :
    detailGET nullMoveDB "1" = .ok nullDetail ∧
    nullDetail.moves = [] ∧
    nullMoveDB.pokemonMoves = [⟨1, 4, "machine", none⟩] ∧
    ¬∃ m ∈ nullDetail.moves, m.level = 0 := by
  decide

/-- Every value of the roman-numeral lookup table lies in `1 .. 9`. -/
theorem romanToNumber_range (s : String) (n : Int)
    (h : romanToNumber s = some n) : 1 ≤ n ∧ n ≤ 9 := by
  unfold romanToNumber at h
  split at h <;> first | (injection h with h; omega) | cases h

/-- The stored generation always lies in `1 .. 9`. -/
theorem generationOf_range (name : String) :
    1 ≤ generationOf name ∧ generationOf name ≤ 9 := by
  unfold generationOf
  cases h1 : genCapture name.data with
  | none => simp
  | some tok =>
    cases h2 : romanToNumber (String.mk tok) with
    | none => simp [h2]
    | some n =>
      simp only [h2]
      exact romanToNumber_range _ n h2

/-- C7: the seeding mapping — stored height is the external height divided by
10 (decimeters → meters), stored weight is the external weight divided by 10
(hectograms → kilograms), and the stored generation maps the roman token of
the species' generation name through the `i..ix → 1..9` lookup (default 1),
hence always lies in `1 .. 9`.  The concrete conjuncts check the lookup on
all nine tokens, the default, and the spec's unit examples
(`height = 4 → 0.4`, `weight = 60 → 6.0`). -/
theorem C7_seed_unit_mapping :
    (∀ (pd : ExtPokemon) (sd : ExtSpecies) (i : Int),
        (mkCreate pd sd i).height = (pd.height : ℚ) / 10 ∧
        (mkCreate pd sd i).weight = (pd.weight : ℚ) / 10 ∧
        (mkCreate pd sd i).generation = generationOf sd.generationName ∧
        1 ≤ (mkCreate pd sd i).generation ∧ (mkCreate pd sd i).generation ≤ 9) ∧
    (generationOf "generation-i" = 1 ∧ generationOf "generation-ii" = 2 ∧
     generationOf "generation-iii" = 3 ∧ generationOf "generation-iv" = 4 ∧
     generationOf "generation-v" = 5 ∧ generationOf "generation-vi" = 6 ∧
     generationOf "generation-vii" = 7 ∧ generationOf "generation-viii" = 8 ∧
     generationOf "generation-ix" = 9 ∧ generationOf "generation-x" = 1 ∧
     generationOf "no-match" = 1) ∧
    ((mkCreate (extPoke 1) extSpec 1).height = 2/5 ∧
     (mkCreate (extPoke 1) extSpec 1).weight = 6) := by
  refine ⟨?_, by decide, by norm_num [mkCreate, extPoke]⟩
  intro pd sd i
  rcases generationOf_range sd.generationName with ⟨hg1, hg2⟩
  exact ⟨rfl, rfl, rfl, hg1, hg2⟩

/-- Unfolding the fold of `seedPokemonRun`: the logged errors are exactly the
failing indices, whatever the initial accumulator. -/
theorem seedFold_errors (fetch : Nat → Except String (ExtPokemon × ExtSpecies)) :
    ∀ (l : List Nat) (o : SeedOutcome),
      (l.foldl
        (fun o i =>
          match fetch i with
          | .ok d => { o with db := seedRecord o.db d.1 d.2 }
          | .error _ => { o with errors := o.errors ++ [i] }) o).errors =
      o.errors ++ l.filter fun i => !(fetch i).isOk := by
  intro l
  induction l with
  | nil => intro o; simp
  | cons i is ih =>
    intro o
    rw [List.foldl_cons, List.filter_cons]
    cases hf : fetch i with
    | ok d => simp [ih, hf, Except.isOk, Except.toBool]
    | error e => simp [ih, hf, Except.isOk, Except.toBool]

/-- C8: the seed loop is per-record best-effort — the errors logged by a run
are exactly the failing indices of `1 .. N` (every record is attempted, and a
failure does not abort the loop); concretely, a fetch that fails only on
record #7 of a 10-record batch leaves 9 created Pokémon and the single logged
error `#7`. -/
theorem C8_seed_skip_failures :
    (∀ (fetch : Nat → Except String (ExtPokemon × ExtSpecies))
        (limit : Nat) (db : DB),
        (seedPokemonRun fetch limit db).errors =
          (seedIdx limit).filter fun i => !(fetch i).isOk) ∧
    (seedPokemonRun fetch7 10 emptyDB).db.pokemon.length = 9 ∧
    (seedPokemonRun fetch7 10 emptyDB).errors = [7] := by
  refine ⟨?_, by decide, by decide⟩
  intro fetch limit db
  unfold seedPokemonRun
  rw [seedFold_errors]
  simp

/-! ### Idempotence machinery for C9 -/

section FoldIdem

variable {σ A : Type _} {step : σ → A → σ} {Done : σ → A → Prop}

theorem foldl_done_all (hC : ∀ s a b, Done s a → Done (step s b) a) :
    ∀ (l : List A) (s : σ) (a : A), Done s a → Done (l.foldl step s) a := by
  intro l
  induction l with
  | nil => intro s a h; exact h
  | cons b bs ih => intro s a h; exact ih _ _ (hC s a b h)

theorem foldl_done_after (hB : ∀ s a, Done (step s a) a)
    (hC : ∀ s a b, Done s a → Done (step s b) a) :
    ∀ (l : List A) (s : σ), ∀ a ∈ l, Done (l.foldl step s) a := by
  intro l
  induction l with
  | nil => intro s a h; simp at h
  | cons b bs ih =>
    intro s a ha
    rcases List.mem_cons.mp ha with rfl | ha
    · exact foldl_done_all hC bs _ a (hB s a)
    · exact ih _ a ha

theorem foldl_noop (hA : ∀ s a, Done s a → step s a = s) :
    ∀ (l : List A) (s : σ), (∀ a ∈ l, Done s a) → l.foldl step s = s := by
  intro l
  induction l with
  | nil => intro s _; rfl
  | cons b bs ih =>
    intro s h
    rw [List.foldl_cons, hA s b (h b (by simp))]
    exact ih s fun a ha => h a (by simp [ha])

/-- A fold whose steps, once performed, stay performed, is idempotent. -/
theorem foldl_idem (hA : ∀ s a, Done s a → step s a = s)
    (hB : ∀ s a, Done (step s a) a)
    (hC : ∀ s a b, Done s a → Done (step s b) a)
    (l : List A) (s : σ) :
    l.foldl step (l.foldl step s) = l.foldl step s :=
  foldl_noop hA l _ (foldl_done_after hB hC l s)

end FoldIdem

/-! Structural facts: the seed steps only append rows. -/

theorem find?_append_some {α : Type _} {p : α → Bool} {l₁ l₂ : List α} {r : α}
    (h : l₁.find? p = some r) : (l₁ ++ l₂).find? p = some r := by
  rw [List.find?_append, h]; rfl

theorem upsertPT_types (db : DB) (row : PokemonTypeRow) :
    (upsertPokemonType db row).types = db.types := by
  unfold upsertPokemonType; split <;> rfl

theorem upsertPT_pokemon (db : DB) (row : PokemonTypeRow) :
    (upsertPokemonType db row).pokemon = db.pokemon := by
  unfold upsertPokemonType; split <;> rfl

theorem upsertPT_pt (db : DB) (row : PokemonTypeRow) :
    ∃ tail, (upsertPokemonType db row).pokemonTypes = db.pokemonTypes ++ tail := by
  unfold upsertPokemonType
  split
  · exact ⟨[], by simp⟩
  · exact ⟨[row], rfl⟩

theorem addTypeStep_types (pid : Int) (db : DB) (tslot : ExtTypeSlot) :
    (addTypeStep pid db tslot).types = db.types := by
  unfold addTypeStep
  split
  · exact upsertPT_types _ _
  · rfl

theorem addTypeStep_pokemon (pid : Int) (db : DB) (tslot : ExtTypeSlot) :
    (addTypeStep pid db tslot).pokemon = db.pokemon := by
  unfold addTypeStep
  split
  · exact upsertPT_pokemon _ _
  · rfl

theorem addTypeStep_pt (pid : Int) (db : DB) (tslot : ExtTypeSlot) :
    ∃ tail, (addTypeStep pid db tslot).pokemonTypes = db.pokemonTypes ++ tail := by
  unfold addTypeStep
  split
  · exact upsertPT_pt _ _
  · exact ⟨[], by simp⟩

theorem addTypes_types (pid : Int) (ts : List ExtTypeSlot) :
    ∀ db : DB, (addTypes pid ts db).types = db.types := by
  induction ts with
  | nil => intro db; rfl
  | cons a as ih =>
    intro db
    show (addTypes pid as (addTypeStep pid db a)).types = db.types
    rw [ih, addTypeStep_types]

theorem addTypes_pokemon (pid : Int) (ts : List ExtTypeSlot) :
    ∀ db : DB, (addTypes pid ts db).pokemon = db.pokemon := by
  induction ts with
  | nil => intro db; rfl
  | cons a as ih =>
    intro db
    show (addTypes pid as (addTypeStep pid db a)).pokemon = db.pokemon
    rw [ih, addTypeStep_pokemon]

theorem addTypes_pt (pid : Int) (ts : List ExtTypeSlot) :
    ∀ db : DB, ∃ tail, (addTypes pid ts db).pokemonTypes = db.pokemonTypes ++ tail := by
  induction ts with
  | nil => intro db; exact ⟨[], by simp [addTypes]⟩
  | cons a as ih =>
    intro db
    rcases addTypeStep_pt pid db a with ⟨t1, h1⟩
    rcases ih (addTypeStep pid db a) with ⟨t2, h2⟩
    exact ⟨t1 ++ t2, by
      show (addTypes pid as (addTypeStep pid db a)).pokemonTypes = _
      rw [h2, h1, List.append_assoc]⟩

theorem seedRecord_types (db : DB) (pd : ExtPokemon) (sd : ExtSpecies) :
    (seedRecord db pd sd).types = db.types := by
  cases h : db.pokemon.find? fun r => r.pokedexId == pd.id with
  | some r =>
    simp only [seedRecord, upsertPokemon, h]
    exact addTypes_types _ _ _
  | none =>
    simp only [seedRecord, upsertPokemon, h]
    exact addTypes_types _ _ _

theorem seedRecord_pokemon (db : DB) (pd : ExtPokemon) (sd : ExtSpecies) :
    ∃ tail, (seedRecord db pd sd).pokemon = db.pokemon ++ tail := by
  cases h : db.pokemon.find? fun r => r.pokedexId == pd.id with
  | some r =>
    simp only [seedRecord, upsertPokemon, h]
    exact ⟨[], by rw [addTypes_pokemon]; simp⟩
  | none =>
    simp only [seedRecord, upsertPokemon, h]
    exact ⟨[mkCreate pd sd (nextPokemonId db)], by rw [addTypes_pokemon]⟩

theorem seedRecord_pt (db : DB) (pd : ExtPokemon) (sd : ExtSpecies) :
    ∃ tail, (seedRecord db pd sd).pokemonTypes = db.pokemonTypes ++ tail := by
  cases h : db.pokemon.find? fun r => r.pokedexId == pd.id with
  | some r =>
    simp only [seedRecord, upsertPokemon, h]
    exact addTypes_pt _ _ _
  | none =>
    simp only [seedRecord, upsertPokemon, h]
    exact addTypes_pt _ _ _

theorem hasPT_mono {db db' : DB}
    (hsub : ∃ tail, db'.pokemonTypes = db.pokemonTypes ++ tail)
    {pid slot : Int} (h : hasPT db pid slot = true) :
    hasPT db' pid slot = true := by
  rcases hsub with ⟨tail, ht⟩
  unfold hasPT at h ⊢
  rw [ht, List.any_append, h, Bool.true_or]

theorem doneRec_mono {db db' : DB}
    (hpok : ∃ tail, db'.pokemon = db.pokemon ++ tail)
    (hty : db'.types = db.types)
    (hpt : ∃ tail, db'.pokemonTypes = db.pokemonTypes ++ tail)
    {pd : ExtPokemon} (h : DoneRec db pd) : DoneRec db' pd := by
  rcases h with ⟨r, hfind, hts⟩
  rcases hpok with ⟨t1, h1⟩
  refine ⟨r, by rw [h1]; exact find?_append_some hfind, ?_⟩
  intro ts hmem t hfindt
  rw [hty] at hfindt
  exact hasPT_mono hpt (hts ts hmem t hfindt)

theorem doneRec_preserved {db : DB} {pd : ExtPokemon} (h : DoneRec db pd)
    (pd' : ExtPokemon) (sd' : ExtSpecies) :
    DoneRec (seedRecord db pd' sd') pd :=
  doneRec_mono (seedRecord_pokemon db pd' sd') (seedRecord_types db pd' sd')
    (seedRecord_pt db pd' sd') h

theorem addTypeStep_ensures (pid : Int) (db : DB) (tslot : ExtTypeSlot)
    (t : TypeRow) (h : db.types.find? (fun x => x.name == tslot.typeName) = some t) :
    hasPT (addTypeStep pid db tslot) pid tslot.slot = true := by
  unfold addTypeStep
  rw [h]
  show hasPT (upsertPokemonType db ⟨pid, t.id, tslot.slot⟩) pid tslot.slot = true
  simp only [upsertPokemonType]
  by_cases hpres : hasPT db pid tslot.slot = true
  · rw [if_pos hpres]; exact hpres
  · rw [if_neg hpres]
    unfold hasPT
    rw [List.any_append]
    simp

theorem addTypes_ensures (pid : Int) (ts : List ExtTypeSlot) :
    ∀ (db : DB), ∀ x ∈ ts, ∀ t,
      db.types.find? (fun y => y.name == x.typeName) = some t →
      hasPT (addTypes pid ts db) pid x.slot = true := by
  induction ts with
  | nil => intro db x hx; simp at hx
  | cons a as ih =>
    intro db x hx t hfind
    have hmono : ∀ (l : List ExtTypeSlot) (d : DB),
        hasPT d pid x.slot = true → hasPT (addTypes pid l d) pid x.slot = true := by
      intro l
      induction l with
      | nil => intro d h; exact h
      | cons b bs ihb =>
        intro d h
        exact ihb _ (hasPT_mono (addTypeStep_pt pid d b) h)
    rcases List.mem_cons.mp hx with rfl | hx
    · exact hmono as _ (addTypeStep_ensures pid db x t hfind)
    · have hfind' : (addTypeStep pid db a).types.find?
          (fun y => y.name == x.typeName) = some t := by
        rw [addTypeStep_types]; exact hfind
      exact ih (addTypeStep pid db a) x hx t hfind'

theorem doneRec_step (db : DB) (pd : ExtPokemon) (sd : ExtSpecies) :
    DoneRec (seedRecord db pd sd) pd := by
  cases hf : db.pokemon.find? fun r => r.pokedexId == pd.id with
  | some r =>
    have hsr : seedRecord db pd sd = addTypes r.id pd.types db := by
      simp only [seedRecord, upsertPokemon, hf]
    rw [hsr]
    refine ⟨r, ?_, ?_⟩
    · rw [addTypes_pokemon]; exact hf
    · intro ts hmem t hfindt
      rw [addTypes_types] at hfindt
      exact addTypes_ensures r.id pd.types db ts hmem t hfindt
  | none =>
    have hsr : seedRecord db pd sd =
        addTypes (mkCreate pd sd (nextPokemonId db)).id pd.types
          { db with pokemon := db.pokemon ++ [mkCreate pd sd (nextPokemonId db)] } := by
      simp only [seedRecord, upsertPokemon, hf]
    rw [hsr]
    refine ⟨mkCreate pd sd (nextPokemonId db), ?_, ?_⟩
    · rw [addTypes_pokemon]
      show (db.pokemon ++ [mkCreate pd sd (nextPokemonId db)]).find? _ = _
      rw [List.find?_append, hf]
      simp [mkCreate]
    · intro ts hmem t hfindt
      rw [addTypes_types] at hfindt
      exact addTypes_ensures _ pd.types _ ts hmem t hfindt

theorem addTypes_noop (pid : Int) (ts : List ExtTypeSlot) :
    ∀ (db : DB),
      (∀ x ∈ ts, ∀ t,
        db.types.find? (fun y => y.name == x.typeName) = some t →
        hasPT db pid x.slot = true) →
      addTypes pid ts db = db := by
  induction ts with
  | nil => intro db _; rfl
  | cons a as ih =>
    intro db hl
    have hstep : addTypeStep pid db a = db := by
      unfold addTypeStep
      cases hft : db.types.find? fun y => y.name == a.typeName with
      | none => rfl
      | some t =>
        have hpres : hasPT db pid a.slot = true := hl a (by simp) t hft
        show upsertPokemonType db ⟨pid, t.id, a.slot⟩ = db
        simp only [upsertPokemonType]
        rw [if_pos hpres]
    show addTypes pid as (addTypeStep pid db a) = db
    rw [hstep]
    exact ih db fun x hx => hl x (by simp [hx])

theorem doneRec_noop {db : DB} {pd : ExtPokemon} (h : DoneRec db pd)
    (sd : ExtSpecies) : seedRecord db pd sd = db := by
  rcases h with ⟨r, hfind, hts⟩
  have hsr : seedRecord db pd sd = addTypes r.id pd.types db := by
    simp only [seedRecord, upsertPokemon, hfind]
  rw [hsr]
  exact addTypes_noop r.id pd.types db hts

/-! The `seedPokemon` loop, projected onto the stored data. -/

theorem seedFold_db (fetch : Nat → Except String (ExtPokemon × ExtSpecies)) :
    ∀ (l : List Nat) (o : SeedOutcome),
      (l.foldl
        (fun o i =>
          match fetch i with
          | .ok d => { o with db := seedRecord o.db d.1 d.2 }
          | .error _ => { o with errors := o.errors ++ [i] }) o).db =
      l.foldl (dbStep fetch) o.db := by
  intro l
  induction l with
  | nil => intro o; rfl
  | cons i is ih =>
    intro o
    rw [List.foldl_cons, List.foldl_cons, ih]
    cases hf : fetch i <;> simp [dbStep, hf]

theorem seedPokemonRun_db (fetch : Nat → Except String (ExtPokemon × ExtSpecies))
    (limit : Nat) (db : DB) :
    (seedPokemonRun fetch limit db).db = (seedIdx limit).foldl (dbStep fetch) db := by
  unfold seedPokemonRun
  exact seedFold_db fetch (seedIdx limit) ⟨db, []⟩

theorem dbStep_noop (fetch : Nat → Except String (ExtPokemon × ExtSpecies))
    (db : DB) (i : Nat) (h : DoneStep fetch db i) : dbStep fetch db i = db := by
  unfold DoneStep at h
  unfold dbStep
  cases hf : fetch i with
  | ok d =>
    rw [hf] at h
    exact doneRec_noop h d.2
  | error e => rfl

theorem dbStep_done (fetch : Nat → Except String (ExtPokemon × ExtSpecies))
    (db : DB) (i : Nat) : DoneStep fetch (dbStep fetch db i) i := by
  unfold DoneStep dbStep
  cases hf : fetch i with
  | ok d => exact doneRec_step db d.1 d.2
  | error e => trivial

theorem dbStep_done_preserved (fetch : Nat → Except String (ExtPokemon × ExtSpecies))
    (db : DB) (i j : Nat) (h : DoneStep fetch db i) :
    DoneStep fetch (dbStep fetch db j) i := by
  unfold DoneStep at h ⊢
  cases hf : fetch i with
  | ok d =>
    rw [hf] at h
    unfold dbStep
    cases hg : fetch j with
    | ok d' => exact doneRec_preserved h d'.1 d'.2
    | error e => exact h
  | error e => trivial

theorem pokemonRun_idem (fetch : Nat → Except String (ExtPokemon × ExtSpecies))
    (limit : Nat) (db : DB) :
    (seedPokemonRun fetch limit ((seedPokemonRun fetch limit db).db)).db =
      (seedPokemonRun fetch limit db).db := by
  rw [seedPokemonRun_db, seedPokemonRun_db]
  exact foldl_idem (dbStep_noop fetch) (dbStep_done fetch)
    (dbStep_done_preserved fetch) (seedIdx limit) db

/-! The `seedPokemonTypes` loop. -/

theorem upsertType_types_append (db : DB) (name : String) :
    ∃ tail, (upsertType db name).types = db.types ++ tail := by
  unfold upsertType
  split
  · exact ⟨[], by simp⟩
  · exact ⟨[⟨nextTypeId db, name, (typeColors name).getD "#68A090"⟩], rfl⟩

theorem tyStep_types_append (db : DB) (it : String × String) :
    ∃ tail, (tyStep db it).types = db.types ++ tail := by
  unfold tyStep
  split
  · exact ⟨[], by simp⟩
  · exact upsertType_types_append _ _

theorem tyStep_noop (db : DB) (it : String × String) (h : DoneTy db it) :
    tyStep db it = db := by
  unfold tyStep
  rcases h with h | h | h
  · rw [if_pos (by simp [h])]
  · rw [if_pos (by simp [h])]
  · split
    · rfl
    · unfold upsertType
      rw [if_pos h]

theorem tyStep_done (db : DB) (it : String × String) : DoneTy (tyStep db it) it := by
  by_cases hskip : (it.1 == "unknown" || it.1 == "shadow") = true
  · rcases (Bool.or_eq_true _ _).mp hskip with h | h
    · exact Or.inl (eq_of_beq h)
    · exact Or.inr (Or.inl (eq_of_beq h))
  · right; right
    unfold tyStep
    rw [if_neg hskip]
    unfold upsertType
    split
    · rename_i hany
      exact hany
    · rw [List.any_append]
      simp

theorem tyStep_done_preserved (db : DB) (it j : String × String)
    (h : DoneTy db it) : DoneTy (tyStep db j) it := by
  rcases h with h | h | h
  · exact Or.inl h
  · exact Or.inr (Or.inl h)
  · right; right
    rcases tyStep_types_append db j with ⟨tail, ht⟩
    rw [ht, List.any_append, h, Bool.true_or]

theorem typesRun_idem (items : List (String × String)) (db : DB) :
    seedTypesRun items (seedTypesRun items db) = seedTypesRun items db := by
  show items.foldl tyStep (items.foldl tyStep db) = items.foldl tyStep db
  exact foldl_idem tyStep_noop tyStep_done
    (fun s a b h => tyStep_done_preserved s a b h) items db

theorem foldl_dbStep_types (fetch : Nat → Except String (ExtPokemon × ExtSpecies)) :
    ∀ (l : List Nat) (db : DB), (l.foldl (dbStep fetch) db).types = db.types := by
  intro l
  induction l with
  | nil => intro db; rfl
  | cons i is ih =>
    intro db
    rw [List.foldl_cons, ih]
    unfold dbStep
    cases hf : fetch i with
    | ok d => exact seedRecord_types _ _ _
    | error e => rfl

theorem doneTy_of_types_eq {db db' : DB} (h : db'.types = db.types)
    {it : String × String} (hd : DoneTy db it) : DoneTy db' it := by
  rcases hd with hd | hd | hd
  · exact Or.inl hd
  · exact Or.inr (Or.inl hd)
  · right; right
    rw [h]
    exact hd

/-- C9: re-running the seeding over the same external data is a no-op on the
stored state — for the types pass, the Pokémon pass, and the composed routine
(`seedPokemonTypes(); seedPokemon(N)`), over ANY starting store.  Every write
is an upsert keyed on the natural unique field with an empty update clause,
so the second run finds every key present and changes nothing. -/
theorem C9_seed_idempotent (items : List (String × String))
    (fetch : Nat → Except String (ExtPokemon × ExtSpecies))
    (limit : Nat) (db : DB) :
    seedTypesRun items (seedTypesRun items db) = seedTypesRun items db ∧
    (seedPokemonRun fetch limit ((seedPokemonRun fetch limit db).db)).db =
      (seedPokemonRun fetch limit db).db ∧
    (seedPokemonRun fetch limit (seedTypesRun items
        ((seedPokemonRun fetch limit (seedTypesRun items db)).db))).db =
      (seedPokemonRun fetch limit (seedTypesRun items db)).db := by
  refine ⟨typesRun_idem items db, pokemonRun_idem fetch limit db, ?_⟩
  have hT : seedTypesRun items ((seedPokemonRun fetch limit (seedTypesRun items db)).db) =
      (seedPokemonRun fetch limit (seedTypesRun items db)).db := by
    show items.foldl tyStep _ = _
    apply foldl_noop tyStep_noop
    intro it hit
    have h1 : DoneTy (seedTypesRun items db) it :=
      foldl_done_after tyStep_done
        (fun s a b h => tyStep_done_preserved s a b h) items db it hit
    have h2 : ((seedPokemonRun fetch limit (seedTypesRun items db)).db).types =
        (seedTypesRun items db).types := by
      rw [seedPokemonRun_db]
      exact foldl_dbStep_types fetch _ _
    exact doneTy_of_types_eq h2 h1
  rw [hT]
  exact pokemonRun_idem fetch limit (seedTypesRun items db)

end Pokedex
